import Mathlib

/-!
Verification development for the openupm-cli dependency-resolution and
manifest-mutation core.

The embedding follows the repository sources:
* `src/cli/cmd-add.ts` — the add command (`tryAddToManifest`, the batch loop
  and the final save decision of `makeAddCmd`);
* `src/services/parse-env.ts` — environment parsing (`determinePrimaryRegistry`,
  `determineUpstreamRegistry`, the `Env` record);
* the manifest mutation engine (`tryRemoveProjectDependency`, `addDependency`,
  `addScope`, `addTestable`, `mapScopedRegistry`) whose implementation file is
  not part of the provided sources (only its property-based test suite is);
  those definitions are modelled from the specification, as marked on each.

Machine integers do not occur; versions, names and urls are strings.  Maps
with string keys (the manifest `dependencies` object) are embedded as
association lists with unique keys; lookups go through `lookupDep`.
-/

/-- A package identifier (validated reverse-domain string in the source). -/
abbrev DomainName := String

/-- One entry of the manifest's `scopedRegistries` array:
`{ name, url, scopes }` as in `src/domain/scoped-registry`. -/
structure ScopedRegistry where
  name : String
  url : String
  scopes : List DomainName
deriving Repr, DecidableEq

/-- The Unity project manifest: `dependencies` (object, name → version-or-url
string), optional `scopedRegistries`, optional `testables`.  `none` models the
JSON property being absent, which is semantically distinct from an empty
array. -/
structure UnityProjectManifest where
  dependencies : List (DomainName × String)
  scopedRegistries : Option (List ScopedRegistry)
  testables : Option (List DomainName)
deriving Repr, DecidableEq

/-- Lookup in the `dependencies` object (JS property access
`manifest.dependencies[name]`). -/
def lookupDep : List (DomainName × String) → DomainName → Option String
  | [], _ => none
  | (k, v) :: rest, n => if k = n then some v else lookupDep rest n

/-- Deletion of a key from the `dependencies` object (JS destructuring
`const { [name]: _, ...rest } = manifest.dependencies`). -/
def removeKey : List (DomainName × String) → DomainName → List (DomainName × String)
  | [], _ => []
  | (k, v) :: rest, n => if k = n then removeKey rest n else (k, v) :: removeKey rest n

/-- Removal of every occurrence of a name from a name list
(`scopes.filter(s => s !== name)`). -/
def removeName : List DomainName → DomainName → List DomainName
  | [], _ => []
  | s :: rest, n => if s = n then removeName rest n else s :: removeName rest n

/-- An optional collection that must be absent rather than empty:
`[]` maps to `none`. -/
def emptyToNone (l : List α) : Option (List α) :=
  if l.isEmpty then none else some l

/-- Equality of `Except` values is decidable when it is on both sides. -/
instance exceptDecEq [DecidableEq ε] [DecidableEq α] : DecidableEq (Except ε α) := fun x y =>
  match x, y with
  | Except.ok a, Except.ok b =>
    if h : a = b then Decidable.isTrue (by rw [h]) else Decidable.isFalse (by simp [h])
  | Except.error a, Except.error b =>
    if h : a = b then Decidable.isTrue (by rw [h]) else Decidable.isFalse (by simp [h])
  | Except.ok _, Except.error _ => Decidable.isFalse (by simp)
  | Except.error _, Except.ok _ => Decidable.isFalse (by simp)

/-- Removing a name from every scoped registry's scope set, dropping any
registry whose scope set becomes empty. -/
def cleanRegistries : List ScopedRegistry → DomainName → List ScopedRegistry
  | [], _ => []
  | r :: rest, n =>
    let s := removeName r.scopes n
    if s = [] then cleanRegistries rest n
    else { r with scopes := s } :: cleanRegistries rest n

/-- The typed error of the removal operation: the named package is not in the
manifest's dependency map (`PackumentNotFoundError` in `src/common-errors`). -/
inductive RemoveError where
  | packumentNotFound (name : DomainName)
deriving Repr, DecidableEq

/-- The `{ name, version }` record a successful removal returns. -/
structure RemovedDependency where
  name : DomainName
  version : String
deriving Repr, DecidableEq

/-- Modelled from the spec: `tryRemoveProjectDependency(manifest, name)` of
`src/domain/dependency-management`, whose implementation file is not among the
provided sources (only its test suite, `src/unnamed/part_000`, is).  Per
spec §4.3: fails with `PackumentNotFoundError(name)` iff `name` is absent from
`dependencies` (the only error condition); on success removes the entry from
`dependencies`, removes `name` from every scoped registry's `scopes` (deleting
entries whose scopes become empty and the whole `scopedRegistries` property if
the sequence becomes empty), removes `name` from `testables` (deleting the
property if it becomes empty), and returns the new manifest together with a
`{ name, version }` record holding the version as it existed before removal. -/
def tryRemoveProjectDependency (m : UnityProjectManifest) (name : DomainName) :
    Except RemoveError (UnityProjectManifest × RemovedDependency) :=
  match lookupDep m.dependencies name with
  | none => Except.error (RemoveError.packumentNotFound name)
  | some v =>
    Except.ok
      ({ dependencies := removeKey m.dependencies name,
         scopedRegistries := (m.scopedRegistries.map (fun l => cleanRegistries l name)).bind emptyToNone,
         testables := (m.testables.map (fun l => removeName l name)).bind emptyToNone },
       { name := name, version := v })

/-- Insert-or-overwrite on the `dependencies` object (JS object spread
`{ ...deps, [name]: version }`): an existing key keeps its position and gets
the new value, a new key is appended. -/
def insertDep : List (DomainName × String) → DomainName → String → List (DomainName × String)
  | [], n, v => [(n, v)]
  | (k, w) :: rest, n, v =>
    if k = n then (k, v) :: rest else (k, w) :: insertDep rest n v

/-- Modelled from the spec: `addDependency(manifest, name, version)` of
`src/domain/project-manifest` (implementation file not among the provided
sources; `src/cli/cmd-add.ts` calls it).  Per spec §4.3: inserts or overwrites
the entry for `name` in `dependencies`; pure, always succeeds. -/
def addDependency (m : UnityProjectManifest) (name : DomainName) (version : String) :
    UnityProjectManifest :=
  { m with dependencies := insertDep m.dependencies name version }

/-- Modelled from the spec: `addScope(scopedRegistry, name)` of
`src/domain/scoped-registry` (implementation file not among the provided
sources).  Per spec §4.3: adds `name` to the registry's scope set if absent;
idempotent, no duplicate entries. -/
def addScope (r : ScopedRegistry) (name : DomainName) : ScopedRegistry :=
  if r.scopes.contains name then r else { r with scopes := r.scopes ++ [name] }

/-- Modelled from the spec: `makeEmptyScopedRegistryFor(url)` of
`src/domain/scoped-registry` (implementation file not among the provided
sources): a fresh scoped-registry entry for the url with an empty scope set. -/
def makeEmptyScopedRegistryFor (url : String) : ScopedRegistry :=
  { name := url, url := url, scopes := [] }

/-- Lookup of the scoped-registry entry matching a url
(`manifest.scopedRegistries?.find(r => r.url === url)`). -/
def findScopedRegistry (m : UnityProjectManifest) (url : String) : Option ScopedRegistry :=
  (m.scopedRegistries.getD []).find? (fun r => r.url == url)

/-- Modelled from the spec: `mapScopedRegistry(manifest, url, fn)` of
`src/domain/project-manifest` (implementation file not among the provided
sources).  Per spec §4.3: looks up the scoped-registry entry matching `url`
(or `undefined` if none), applies `fn` to produce a replacement (or absence to
delete), and rewrites the `scopedRegistries` sequence accordingly, preserving
the empty-collection invariant. -/
def mapScopedRegistry (m : UnityProjectManifest) (url : String)
    (fn : Option ScopedRegistry → Option ScopedRegistry) : UnityProjectManifest :=
  let current := findScopedRegistry m url
  match fn current with
  | none =>
    let pruned := emptyToNone ((m.scopedRegistries.getD []).filter (fun r => !(r.url == url)))
    { m with scopedRegistries := pruned }
  | some r' =>
    match current with
    | some _ =>
      let replaced := (m.scopedRegistries.getD []).map (fun r => if r.url == url then r' else r)
      { m with scopedRegistries := some replaced }
    | none =>
      { m with scopedRegistries := some ((m.scopedRegistries.getD []) ++ [r']) }

/-- Modelled from the spec: `addTestable(manifest, name)` of
`src/domain/project-manifest` (implementation file not among the provided
sources; `src/cli/cmd-add.ts` calls it).  Per spec §4.3: idempotently adds
`name` to the testables set, creating the property if absent. -/
def addTestable (m : UnityProjectManifest) (name : DomainName) : UnityProjectManifest :=
  let ts := m.testables.getD []
  { m with testables := some (if ts.contains name then ts else ts ++ [name]) }

example :
    tryRemoveProjectDependency
      { dependencies := [("com.foo", "1.0.0")],
        scopedRegistries := some [{ name := "R", url := "http://r", scopes := ["com.foo"] }],
        testables := some ["com.foo"] }
      "com.foo" =
    Except.ok
      ({ dependencies := [], scopedRegistries := none, testables := none },
       { name := "com.foo", version := "1.0.0" }) := by decide

example :
    tryRemoveProjectDependency
      { dependencies := [("com.foo", "1.0.0")], scopedRegistries := none, testables := none }
      "com.bar" =
    Except.error (RemoveError.packumentNotFound "com.bar") := by decide

/-!
## The add command (`src/cli/cmd-add.ts`)

`tryAddToManifest` and the batch loop of `makeAddCmd` are embedded as pure
functions.  The asynchronous collaborators (registry fetches via `tryResolve`,
the dependency walker `resolveDependencies`, editor-version parsing) enter as
function-valued fields of `AddEnvM`; logging calls are side-effect-free and
are dropped.  The final save decision (`if (dirty) trySaveProjectManifest`) is
modelled by `runAddCmd` returning `some manifest` when a save is issued and
`none` when it is not.
-/

/-- Whether the first character list is a prefix of the second (the string
comparison underlying the url checks, spelled out structurally). -/
def charsHavePrefix : List Char → List Char → Bool
  | [], _ => true
  | _ :: _, [] => false
  | p :: ps, c :: cs => p == c && charsHavePrefix ps cs

/-- Modelled from the spec: `isPackageUrl` of `src/domain/package-url`
(implementation file not among the provided sources).  Per spec §3, a
`PackageUrl` is a version specifier that is a direct URL/git reference rather
than a registry version. -/
def isPackageUrl (s : String) : Bool :=
  charsHavePrefix "http://".toList s.toList || charsHavePrefix "https://".toList s.toList ||
  charsHavePrefix "git".toList s.toList || charsHavePrefix "file:".toList s.toList

/-- The typed resolution failures of `src/packument-resolving` visible in
`cmd-add.ts`: `PackumentNotFoundError`, `VersionNotFoundError`, and any other
failure (transport errors etc.). -/
inductive ResolveError where
  | packumentNotFound
  | versionNotFound (requestedVersion : String) (availableVersions : List String)
  | other
deriving Repr, DecidableEq

/-- The part of a resolved packument version `cmd-add.ts` reads: its concrete
version and the result of `targetEditorVersionFor` on it. -/
structure PackumentVersionM where
  version : String
  targetEditorVersion : Option String
deriving Repr, DecidableEq

/-- A resolved node of the dependency walker (`depsValid` element): name plus
the `upstream`/`internal` classification flags. -/
structure ResolvedNodeM where
  name : DomainName
  upstream : Bool
  internal : Bool
deriving Repr, DecidableEq

/-- An unresolved node of the dependency walker (`depsInvalid` element):
name plus the failure reason. -/
structure UnresolvedNodeM where
  name : DomainName
  reason : ResolveError
deriving Repr, DecidableEq

/-- The editor version recorded in the environment: either an unparsable raw
string (the version check is then disabled) or a parsed, totally ordered
version value (embedded as `Nat`; `cmd-add.ts` only compares it with
`compareEditorVersion`). -/
inductive EditorVer where
  | unparsed (s : String)
  | parsed (v : Nat)
deriving Repr, DecidableEq

/-- The environment and collaborators `tryAddToManifest` consults: the
`upstream` flag and primary-registry url from `parseEnv`, the editor version,
and the pure behaviours of `tryResolve` against the primary and upstream
registries, of the dependency walker, and of `tryParseEditorVersion`. -/
structure AddEnvM where
  upstream : Bool
  registryUrl : String
  editorVersion : EditorVer
  primary : DomainName → Option String → Except ResolveError PackumentVersionM
  upstreamReg : DomainName → Option String → Except ResolveError PackumentVersionM
  resolveDeps : DomainName → Option String → List ResolvedNodeM × List UnresolvedNodeM
  parseEditorVersion : String → Option Nat

/-- The options of the add command that `tryAddToManifest` reads:
`--test` and `--force`. -/
structure AddOptsM where
  test : Bool
  force : Bool
deriving Repr, DecidableEq

/-- The errors `tryAddToManifest` can return (`AddError` in `cmd-add.ts`,
restricted to the branches inside `tryAddToManifest`). -/
inductive AddErrorM where
  | resolveErr (e : ResolveError)
  | invalidPackumentData
  | editorIncompatible
  | unresolvedDependency
deriving Repr, DecidableEq

/-- The outcome of the primary-then-upstream resolution block of
`tryAddToManifest` (`cmd-add.ts` lines 122–137).  `upstreamQueries` counts how
many times `tryResolve` is invoked against the upstream registry in the block
(0 or 1 by construction). -/
structure ResolvePhaseResult where
  result : Except ResolveError PackumentVersionM
  isUpstreamPackage : Bool
  upstreamQueries : Nat
deriving Repr

/-- The primary-then-upstream resolution block of `tryAddToManifest`:
resolve against the primary registry; if that failed and `env.upstream` is
set, resolve once against the upstream registry, setting `isUpstreamPackage`
exactly when that retry succeeds (its result, success or failure, replaces
the primary one). -/
def resolvePhase (env : AddEnvM) (name : DomainName) (requestedVersion : Option String) :
    ResolvePhaseResult :=
  let r := env.primary name requestedVersion
  if r.isOk then { result := r, isUpstreamPackage := false, upstreamQueries := 0 }
  else if env.upstream then
    let r2 := env.upstreamReg name requestedVersion
    { result := r2, isUpstreamPackage := r2.isOk, upstreamQueries := 1 }
  else { result := r, isUpstreamPackage := false, upstreamQueries := 0 }

/-- The editor-version verification block of `tryAddToManifest`
(`cmd-add.ts` lines 157–202): if the packument version names a target editor
version that does not parse, fail with `InvalidPackumentDataError` unless
forced; if it parses, the local editor version is itself parsed, and is older,
fail with `EditorIncompatibleError` unless forced; an unparsable local editor
version disables the check. -/
def editorCheck (env : AddEnvM) (opts : AddOptsM) (pv : PackumentVersionM) :
    Except AddErrorM Unit :=
  match pv.targetEditorVersion with
  | none => Except.ok ()
  | some tev =>
    match env.parseEditorVersion tev with
    | none => if opts.force then Except.ok () else Except.error AddErrorM.invalidPackumentData
    | some req =>
      match env.editorVersion with
      | EditorVer.unparsed _ => Except.ok ()
      | EditorVer.parsed ev =>
        if ev < req then
          if opts.force then Except.ok () else Except.error AddErrorM.editorIncompatible
        else Except.ok ()

/-- The dependency-walk block of `tryAddToManifest` for non-upstream packages
(`cmd-add.ts` lines 204–252): run the walker, keep the names of valid nodes
that are neither upstream nor internal as `pkgsInScope`, and fail with
`UnresolvedDependencyError` (unless forced) when some invalid node has a
not-found/version-not-found reason and is not already a dependency of the
manifest. -/
def scopePhase (env : AddEnvM) (opts : AddOptsM) (manifest : UnityProjectManifest)
    (name : DomainName) (requestedVersion : Option String) :
    Except AddErrorM (List DomainName) :=
  let walk := env.resolveDeps name requestedVersion
  let pkgsInScope := (walk.1.filter (fun x => !x.upstream && !x.internal)).map
    (fun x => x.name)
  let isAnyDependencyUnresolved := walk.2.any (fun d =>
    (match d.reason with
     | ResolveError.packumentNotFound => true
     | ResolveError.versionNotFound _ _ => true
     | ResolveError.other => false)
    && (lookupDep manifest.dependencies d.name).isNone)
  if isAnyDependencyUnresolved && !opts.force then
    Except.error AddErrorM.unresolvedDependency
  else Except.ok pkgsInScope

/-- The resolution half of `tryAddToManifest` for a non-URL version specifier:
primary/upstream resolution, editor check, then the dependency walk (for
non-upstream packages) or `pkgsInScope = [name]` (for upstream packages).
Returns the version to add, the `isUpstreamPackage` flag and `pkgsInScope`. -/
def addStep (env : AddEnvM) (opts : AddOptsM) (manifest : UnityProjectManifest)
    (name : DomainName) (requestedVersion : Option String) :
    Except AddErrorM (String × Bool × List DomainName) :=
  let rp := resolvePhase env name requestedVersion
  match rp.result with
  | Except.error e => Except.error (AddErrorM.resolveErr e)
  | Except.ok pv =>
    match editorCheck env opts pv with
    | Except.error e => Except.error e
    | Except.ok _ =>
      if rp.isUpstreamPackage then Except.ok (pv.version, rp.isUpstreamPackage, [name])
      else
        match scopePhase env opts manifest name requestedVersion with
        | Except.error e => Except.error e
        | Except.ok pkgsInScope => Except.ok (pv.version, rp.isUpstreamPackage, pkgsInScope)

/-- The mutation half of `tryAddToManifest` (`cmd-add.ts` lines 255–301):
`addDependency` with the resolved version (the `dirty` flag is set iff the old
entry differed or was absent), the scoped-registry update through
`mapScopedRegistry`/`addScope` — guarded by `!isUpstreamPackage` and a
non-empty `pkgsInScope`, with `dirty` also set when the updated scope list
differs — and finally `addTestable` when the `--test` option is set (the
source sets no dirty flag for it).  Returns the new manifest and the dirty
flag. -/
def applyAddMutations (env : AddEnvM) (opts : AddOptsM) (manifest : UnityProjectManifest)
    (name : DomainName) (versionToAdd : String) (isUpstreamPackage : Bool)
    (pkgsInScope : List DomainName) : UnityProjectManifest × Bool :=
  let oldVersion := lookupDep manifest.dependencies name
  let manifest1 := addDependency manifest name versionToAdd
  let dirty := !(oldVersion == some versionToAdd)
  let withScopes :=
    if !isUpstreamPackage && !pkgsInScope.isEmpty then
      let initial := findScopedRegistry manifest1 env.registryUrl
      let updated := pkgsInScope.foldl addScope
        (initial.getD (makeEmptyScopedRegistryFor env.registryUrl))
      let dirty2 := !(updated.scopes == (initial.map ScopedRegistry.scopes).getD []) || dirty
      (mapScopedRegistry manifest1 env.registryUrl (fun _ => some updated), dirty2)
    else (manifest1, dirty)
  let manifest3 := if opts.test then addTestable withScopes.1 name else withScopes.1
  (manifest3, withScopes.2)

/-- `tryAddToManifest` of `cmd-add.ts`: for a URL specifier the resolution
half is skipped entirely (`versionToAdd` stays the url, `isUpstreamPackage`
stays false, `pkgsInScope` stays empty); otherwise `addStep` runs.  The
mutation half `applyAddMutations` is then applied to its result. -/
def tryAddToManifest (env : AddEnvM) (opts : AddOptsM) (manifest : UnityProjectManifest)
    (pkg : DomainName × Option String) : Except AddErrorM (UnityProjectManifest × Bool) :=
  let name := pkg.1
  let requestedVersion := pkg.2
  let stepResult : Except AddErrorM (String × Bool × List DomainName) :=
    match requestedVersion with
    | some v =>
      if isPackageUrl v then Except.ok (v, false, [])
      else addStep env opts manifest name requestedVersion
    | none => addStep env opts manifest name none
  match stepResult with
  | Except.error e => Except.error e
  | Except.ok (versionToAdd, isUpstreamPackage, pkgsInScope) =>
    Except.ok (applyAddMutations env opts manifest name versionToAdd isUpstreamPackage pkgsInScope)

/-- The batch loop of `makeAddCmd` (`cmd-add.ts` lines 313–323): process the
requested packages in order, abort on the first error, adopt the new manifest
and set the accumulated dirty flag only when a step reports a change (an
unchanged step's returned manifest is discarded). -/
def addLoop (env : AddEnvM) (opts : AddOptsM) :
    UnityProjectManifest → Bool → List (DomainName × Option String) →
    Except AddErrorM (UnityProjectManifest × Bool)
  | m, dirty, [] => Except.ok (m, dirty)
  | m, dirty, pkg :: rest =>
    match tryAddToManifest env opts m pkg with
    | Except.error e => Except.error e
    | Except.ok (newManifest, manifestChanged) =>
      if manifestChanged then addLoop env opts newManifest true rest
      else addLoop env opts m dirty rest

/-- The tail of `makeAddCmd` after the manifest is loaded (`cmd-add.ts` lines
312–338): run the batch loop from a clean dirty flag and, on success, save the
manifest iff the accumulated dirty flag is set.  `Except.ok (some m)` models
`trySaveProjectManifest` being invoked with `m`; `Except.ok none` models the
command finishing without a save; `Except.error e` models the command
returning the error (before any save). -/
def runAddCmd (env : AddEnvM) (opts : AddOptsM) (manifest0 : UnityProjectManifest)
    (pkgs : List (DomainName × Option String)) :
    Except AddErrorM (Option UnityProjectManifest) :=
  match addLoop env opts manifest0 false pkgs with
  | Except.error e => Except.error e
  | Except.ok (m, dirty) => Except.ok (if dirty then some m else none)

/-!
## Environment parsing (`src/services/parse-env.ts`)

The pure content of `makeParseEnv`: reading the command options and the
already-loaded `.upmconfig.toml` content into the `Env` record.  The
collaborators (`getUpmConfigPath`, `getRegistryAuth`, `getCwd`) are external
I/O; their results enter as arguments (`upmConfig`, `cwd0`).  The logger
side effects (log level, colour) carry no data into `Env` and are dropped. -/

/-- Authentication information attached to a registry (opaque here: only its
presence or absence matters to the embedded code). -/
structure AuthM where
  token : String
deriving Repr, DecidableEq

/-- `Registry` of `src/domain/registry`: `{ url, auth }` with `auth` possibly
`null`. -/
structure RegistryM where
  url : String
  auth : Option AuthM
deriving Repr, DecidableEq

/-- Modelled from the spec: the loaded `.upmconfig.toml` content, consulted
only through `tryGetAuthForRegistry` (implementation file not among the
provided sources): per spec §1/§6 auth-config loading is an external
collaborator, so it is embedded as the map from registry url to the auth
information stored for it. -/
def UpmConfigM := String → Option AuthM

/-- `tryGetAuthForRegistry(upmConfig, url)` of `src/domain/upm-config`
(implementation not among the provided sources): the auth entry the config
holds for the url, or `null`. -/
def tryGetAuthForRegistry (cfg : UpmConfigM) (url : String) : Option AuthM :=
  cfg url

/-- Modelled from the spec: `RegistryUrl.parse` of `src/domain/registry-url`
(implementation file not among the provided sources).  Per spec §3 a
`RegistryUrl` is a validated absolute URL in normalized format; the
normalization embedded here strips trailing slashes. -/
def registryUrlParse (s : String) : String :=
  String.mk ((s.toList.reverse.dropWhile (fun c => c = '/')).reverse)

/-- Modelled from the spec: `coerceRegistryUrl` of `src/domain/registry-url`
(implementation file not among the provided sources): prepends a protocol to
a bare host before normalizing, so any user-supplied `--registry` value
becomes a valid `RegistryUrl`. -/
def coerceRegistryUrl (s : String) : String :=
  if charsHavePrefix "http://".toList s.toList || charsHavePrefix "https://".toList s.toList then
    registryUrlParse s
  else registryUrlParse ("http://" ++ s)

/-- The command options `makeParseEnv` reads (`CmdOptions` of
`src/cli/options`): each field is optional on the command line. -/
structure CmdOptionsM where
  registry : Option String
  upstream : Option Bool
  systemUser : Option Bool
  chdir : Option String
  verbose : Option Bool
  color : Option Bool
deriving Repr, DecidableEq

/-- The `Env` record of `parse-env.ts`. -/
structure EnvM where
  cwd : String
  systemUser : Bool
  upstream : Bool
  upstreamRegistry : RegistryM
  registry : RegistryM
deriving Repr, DecidableEq

/-- `determinePrimaryRegistry` of `parse-env.ts`: the url is the coerced
`--registry` option when given, else the parsed default
`https://package.openupm.com`; the auth is whatever the upm config holds for
that url (possibly none). -/
def determinePrimaryRegistry (options : CmdOptionsM) (upmConfig : UpmConfigM) : RegistryM :=
  let url :=
    match options.registry with
    | some r => coerceRegistryUrl r
    | none => registryUrlParse "https://package.openupm.com"
  { url := url, auth := tryGetAuthForRegistry upmConfig url }

/-- `determineUpstreamRegistry` of `parse-env.ts`: always the parsed
`https://packages.unity.com` with `auth: null`; it reads neither the options
nor the upm config. -/
def determineUpstreamRegistry : RegistryM :=
  { url := registryUrlParse "https://packages.unity.com", auth := none }

/-- The pure content of the function `makeParseEnv` returns (`parse-env.ts`
lines 114–156), with the results of the I/O collaborators as arguments:
`upmConfig` is what `getRegistryAuth` produced and `cwd0` what `getCwd`
produced.  `upstream` is `options.upstream !== false`, `systemUser` is
`options.systemUser === true`, `cwd` is the `--chdir` option when given. -/
def parseEnvM (options : CmdOptionsM) (upmConfig : UpmConfigM) (cwd0 : String) : EnvM :=
  { cwd := options.chdir.getD cwd0,
    systemUser := options.systemUser == some true,
    upstream := !(options.upstream == some false),
    upstreamRegistry := determineUpstreamRegistry,
    registry := determinePrimaryRegistry options upmConfig }

example : determineUpstreamRegistry.url = "https://packages.unity.com" := by decide
example : registryUrlParse "https://package.openupm.com/" = "https://package.openupm.com" := by
  decide

/-! ## Lemmas about the removal engine -/

theorem mem_removeName {l : List DomainName} {n s : DomainName} :
    s ∈ removeName l n ↔ s ∈ l ∧ s ≠ n := by
  induction l with
  | nil => simp [removeName]
  | cons a rest ih =>
    simp only [removeName]
    by_cases ha : a = n
    · subst ha
      rw [if_pos rfl, ih]
      constructor
      · exact fun h => ⟨List.mem_cons_of_mem _ h.1, h.2⟩
      · rintro ⟨h1, h2⟩
        rcases List.mem_cons.mp h1 with rfl | h1
        · exact absurd rfl h2
        · exact ⟨h1, h2⟩
    · rw [if_neg ha]
      constructor
      · intro h
        rcases List.mem_cons.mp h with rfl | h1
        · exact ⟨List.mem_cons_self _ _, ha⟩
        · obtain ⟨h2, h3⟩ := ih.mp h1
          exact ⟨List.mem_cons_of_mem _ h2, h3⟩
      · rintro ⟨h1, h2⟩
        rcases List.mem_cons.mp h1 with rfl | h1
        · exact List.mem_cons_self _ _
        · exact List.mem_cons_of_mem _ (ih.mpr ⟨h1, h2⟩)

theorem removeName_not_mem (l : List DomainName) (n : DomainName) :
    n ∉ removeName l n :=
  fun h => (mem_removeName.mp h).2 rfl

theorem mem_cleanRegistries {l : List ScopedRegistry} {n : DomainName} {sr : ScopedRegistry}
    (h : sr ∈ cleanRegistries l n) : sr.scopes ≠ [] ∧ n ∉ sr.scopes := by
  induction l with
  | nil => simp [cleanRegistries] at h
  | cons r rest ih =>
    simp only [cleanRegistries] at h
    by_cases hs : removeName r.scopes n = []
    · rw [if_pos hs] at h
      exact ih h
    · rw [if_neg hs] at h
      rcases List.mem_cons.mp h with rfl | h2
      · exact ⟨hs, removeName_not_mem _ _⟩
      · exact ih h2

theorem emptyToNone_eq_some {l l' : List α} (h : emptyToNone l = some l') :
    l' = l ∧ l ≠ [] := by
  simp only [emptyToNone] at h
  by_cases he : l.isEmpty
  · rw [if_pos he] at h
    exact absurd h (by simp)
  · rw [if_neg he] at h
    refine ⟨(Option.some.inj h).symm, ?_⟩
    intro hnil
    exact he (by simp [hnil])

theorem lookupDep_removeKey (l : List (DomainName × String)) (n q : DomainName) :
    lookupDep (removeKey l n) q = if q = n then none else lookupDep l q := by
  induction l with
  | nil => simp [removeKey, lookupDep]
  | cons kv rest ih =>
    obtain ⟨k, v⟩ := kv
    simp only [removeKey, lookupDep]
    by_cases hk : k = n
    · subst hk
      rw [if_pos rfl, ih]
      by_cases hq : q = k
      · simp [hq]
      · simp [hq, Ne.symm hq]
    · rw [if_neg hk]
      simp only [lookupDep]
      by_cases hkq : k = q
      · subst hkq
        simp [hk]
      · rw [if_neg hkq, ih]
        simp [hkq]

theorem lookupDep_insertDep (l : List (DomainName × String)) (n v q : String) :
    lookupDep (insertDep l n v) q = if n = q then some v else lookupDep l q := by
  induction l with
  | nil => simp [insertDep, lookupDep]
  | cons kv rest ih =>
    obtain ⟨k, w⟩ := kv
    simp only [insertDep]
    by_cases hk : k = n
    · subst hk
      simp only [if_pos rfl, lookupDep]
      by_cases hq : k = q <;> simp [hq]
    · rw [if_neg hk]
      simp only [lookupDep, ih]
      by_cases hkq : k = q
      · subst hkq
        simp [Ne.symm hk]
      · simp [hkq]

theorem tryRemove_ok_elim {m : UnityProjectManifest} {p : DomainName}
    {m' : UnityProjectManifest} {r : RemovedDependency}
    (h : tryRemoveProjectDependency m p = Except.ok (m', r)) :
    ∃ v, lookupDep m.dependencies p = some v ∧
      m'.dependencies = removeKey m.dependencies p ∧
      m'.scopedRegistries =
        (m.scopedRegistries.map (fun l => cleanRegistries l p)).bind emptyToNone ∧
      m'.testables = (m.testables.map (fun l => removeName l p)).bind emptyToNone ∧
      r.name = p ∧ r.version = v := by
  unfold tryRemoveProjectDependency at h
  cases hl : lookupDep m.dependencies p with
  | none =>
    rw [hl] at h
    simp at h
  | some v =>
    rw [hl] at h
    simp only [Except.ok.injEq, Prod.mk.injEq] at h
    obtain ⟨hm, hr⟩ := h
    refine ⟨v, rfl, ?_, ?_, ?_, ?_, ?_⟩
    · rw [← hm]
    · rw [← hm]
    · rw [← hm]
    · rw [← hr]
    · rw [← hr]

/-! ## Claims about the removal engine -/

/-- C1: for every manifest `M` and package name `P`,
`tryRemoveProjectDependency(M, P)` fails with `PackumentNotFoundError(P)` if
and only if `P` is absent from `M.dependencies`, and this is its only error
condition: for any `P` present in `M.dependencies` it succeeds. -/
theorem tryRemove_error_iff_absent (m : UnityProjectManifest) (p : DomainName) :
    (tryRemoveProjectDependency m p = Except.error (RemoveError.packumentNotFound p) ↔
      lookupDep m.dependencies p = none) ∧
    ((tryRemoveProjectDependency m p).isOk = true ↔ lookupDep m.dependencies p ≠ none) := by
  cases h : lookupDep m.dependencies p with
  | none => simp [tryRemoveProjectDependency, h, Except.isOk, Except.toBool]
  | some v => simp [tryRemoveProjectDependency, h, Except.isOk, Except.toBool]

/-- C2: the manifest a successful removal returns never contains a
scoped-registry entry with an empty scope set; its `scopedRegistries` and
`testables` properties are absent (`none`) rather than present as empty
lists. -/
theorem tryRemove_no_empty_collections (m : UnityProjectManifest) (p : DomainName)
    (m' : UnityProjectManifest) (r : RemovedDependency)
    (h : tryRemoveProjectDependency m p = Except.ok (m', r)) :
    (∀ l, m'.scopedRegistries = some l → l ≠ [] ∧ ∀ sr ∈ l, sr.scopes ≠ []) ∧
    (∀ l, m'.testables = some l → l ≠ []) := by
  obtain ⟨v, hv, hdeps, hsrs, hts, hrn, hrv⟩ := tryRemove_ok_elim h
  constructor
  · intro l hsl
    rw [hsrs] at hsl
    cases hms : m.scopedRegistries with
    | none =>
      rw [hms] at hsl
      simp at hsl
    | some l0 =>
      rw [hms] at hsl
      have hsl' : emptyToNone (cleanRegistries l0 p) = some l := hsl
      obtain ⟨heq, hne⟩ := emptyToNone_eq_some hsl'
      subst heq
      exact ⟨hne, fun sr hsr => (mem_cleanRegistries hsr).1⟩
  · intro l htl
    rw [hts] at htl
    cases hmt : m.testables with
    | none =>
      rw [hmt] at htl
      simp at htl
    | some l0 =>
      rw [hmt] at htl
      have htl' : emptyToNone (removeName l0 p) = some l := htl
      obtain ⟨heq, hne⟩ := emptyToNone_eq_some htl'
      subst heq
      exact hne

/-- C3: after a successful removal of `P` the returned manifest's
`dependencies` no longer contains `P`, no scoped-registry entry's scope set
contains `P`, and `testables` does not contain `P`. -/
theorem tryRemove_purges_name (m : UnityProjectManifest) (p : DomainName)
    (m' : UnityProjectManifest) (r : RemovedDependency)
    (h : tryRemoveProjectDependency m p = Except.ok (m', r)) :
    lookupDep m'.dependencies p = none ∧
    (∀ l, m'.scopedRegistries = some l → ∀ sr ∈ l, p ∉ sr.scopes) ∧
    (∀ l, m'.testables = some l → p ∉ l) := by
  obtain ⟨v, hv, hdeps, hsrs, hts, hrn, hrv⟩ := tryRemove_ok_elim h
  refine ⟨?_, ?_, ?_⟩
  · rw [hdeps, lookupDep_removeKey]
    simp
  · intro l hsl sr hsr
    rw [hsrs] at hsl
    cases hms : m.scopedRegistries with
    | none =>
      rw [hms] at hsl
      simp at hsl
    | some l0 =>
      rw [hms] at hsl
      have hsl' : emptyToNone (cleanRegistries l0 p) = some l := hsl
      obtain ⟨heq, hne⟩ := emptyToNone_eq_some hsl'
      subst heq
      exact (mem_cleanRegistries hsr).2
  · intro l htl
    rw [hts] at htl
    cases hmt : m.testables with
    | none =>
      rw [hmt] at htl
      simp at htl
    | some l0 =>
      rw [hmt] at htl
      have htl' : emptyToNone (removeName l0 p) = some l := htl
      obtain ⟨heq, hne⟩ := emptyToNone_eq_some htl'
      subst heq
      exact removeName_not_mem l0 p

/-- C7: removing `P` (present at version `V`) and re-adding it with
`addDependency` yields a `dependencies` map equivalent to the original one:
every name looks up to the same value as before (the round trip is on the
dependencies map only). -/
theorem removeAdd_roundtrip (m : UnityProjectManifest) (p : DomainName) (v : String)
    (m' : UnityProjectManifest) (r : RemovedDependency)
    (hv : lookupDep m.dependencies p = some v)
    (h : tryRemoveProjectDependency m p = Except.ok (m', r)) :
    ∀ q, lookupDep (addDependency m' p v).dependencies q = lookupDep m.dependencies q := by
  obtain ⟨v0, hv0, hdeps, _, _, _, _⟩ := tryRemove_ok_elim h
  intro q
  show lookupDep (insertDep m'.dependencies p v) q = lookupDep m.dependencies q
  rw [lookupDep_insertDep, hdeps, lookupDep_removeKey]
  by_cases hq : p = q
  · subst hq
    simp [hv]
  · simp [hq, Ne.symm hq]

/-- C8: a successful removal returns, alongside the new manifest, the record
`{ name := P, version := V }` where `V` is exactly the version stored for `P`
in the manifest before the removal. -/
theorem tryRemove_returns_removed_version (m : UnityProjectManifest) (p : DomainName)
    (m' : UnityProjectManifest) (r : RemovedDependency)
    (h : tryRemoveProjectDependency m p = Except.ok (m', r)) :
    r.name = p ∧ lookupDep m.dependencies p = some r.version := by
  obtain ⟨v, hv, _, _, _, hrn, hrv⟩ := tryRemove_ok_elim h
  refine ⟨hrn, ?_⟩
  rw [hrv]
  exact hv

/-! ## Concrete inputs used by the witnesses of the removal claims -/

/-- A manifest with two dependencies, two scoped registries (one of which
holds only the package about to be removed) and one testable. -/
def manifestA : UnityProjectManifest :=
  { dependencies := [("com.foo", "1.0.0"), ("com.bar", "2.0.0")],
    scopedRegistries := some
      [{ name := "R", url := "http://r", scopes := ["com.foo"] },
       { name := "S", url := "http://s", scopes := ["com.foo", "com.bar"] }],
    testables := some ["com.foo"] }

/-- `manifestA` after removing `com.foo`: the emptied registry `R` is gone
and the emptied `testables` property is absent. -/
def manifestARemoved : UnityProjectManifest :=
  { dependencies := [("com.bar", "2.0.0")],
    scopedRegistries := some [{ name := "S", url := "http://s", scopes := ["com.bar"] }],
    testables := none }

theorem tryRemove_no_empty_collections_witness :
    tryRemoveProjectDependency manifestA "com.foo" =
      Except.ok (manifestARemoved, { name := "com.foo", version := "1.0.0" }) ∧
    ((∀ l, manifestARemoved.scopedRegistries = some l → l ≠ [] ∧ ∀ sr ∈ l, sr.scopes ≠ []) ∧
     (∀ l, manifestARemoved.testables = some l → l ≠ [])) :=
  ⟨by decide,
   tryRemove_no_empty_collections manifestA "com.foo" manifestARemoved
     { name := "com.foo", version := "1.0.0" } (by decide)⟩

theorem tryRemove_purges_name_witness :
    tryRemoveProjectDependency manifestA "com.foo" =
      Except.ok (manifestARemoved, { name := "com.foo", version := "1.0.0" }) ∧
    (lookupDep manifestARemoved.dependencies "com.foo" = none ∧
     (∀ l, manifestARemoved.scopedRegistries = some l → ∀ sr ∈ l, "com.foo" ∉ sr.scopes) ∧
     (∀ l, manifestARemoved.testables = some l → "com.foo" ∉ l)) :=
  ⟨by decide,
   tryRemove_purges_name manifestA "com.foo" manifestARemoved
     { name := "com.foo", version := "1.0.0" } (by decide)⟩

theorem removeAdd_roundtrip_witness :
    lookupDep manifestA.dependencies "com.foo" = some "1.0.0" ∧
    tryRemoveProjectDependency manifestA "com.foo" =
      Except.ok (manifestARemoved, { name := "com.foo", version := "1.0.0" }) ∧
    ∀ q, lookupDep (addDependency manifestARemoved "com.foo" "1.0.0").dependencies q =
      lookupDep manifestA.dependencies q :=
  ⟨by decide, by decide,
   removeAdd_roundtrip manifestA "com.foo" "1.0.0" manifestARemoved
     { name := "com.foo", version := "1.0.0" } (by decide) (by decide)⟩

theorem tryRemove_returns_removed_version_witness :
    tryRemoveProjectDependency manifestA "com.foo" =
      Except.ok (manifestARemoved, { name := "com.foo", version := "1.0.0" }) ∧
    (RemovedDependency.name { name := "com.foo", version := "1.0.0" } = "com.foo" ∧
     lookupDep manifestA.dependencies "com.foo" =
       some (RemovedDependency.version { name := "com.foo", version := "1.0.0" })) :=
  ⟨by decide,
   tryRemove_returns_removed_version manifestA "com.foo" manifestARemoved
     { name := "com.foo", version := "1.0.0" } (by decide)⟩

/-! ## Lemmas about the add command -/

theorem addDependency_scopedRegistries (m : UnityProjectManifest) (n : DomainName)
    (v : String) : (addDependency m n v).scopedRegistries = m.scopedRegistries := rfl

theorem addTestable_scopedRegistries (m : UnityProjectManifest) (n : DomainName) :
    (addTestable m n).scopedRegistries = m.scopedRegistries := rfl

theorem applyAddMutations_skip_scope (env : AddEnvM) (opts : AddOptsM)
    (m : UnityProjectManifest) (name : DomainName) (vta : String) (b : Bool)
    (pis : List DomainName) (hguard : (!b && !pis.isEmpty) = false) :
    (applyAddMutations env opts m name vta b pis).1.scopedRegistries = m.scopedRegistries := by
  simp only [applyAddMutations, hguard, Bool.false_eq_true, if_false]
  cases ht : opts.test <;> simp [ht, addTestable_scopedRegistries, addDependency_scopedRegistries]

theorem addStep_ok_flag (env : AddEnvM) (opts : AddOptsM) (m : UnityProjectManifest)
    (name : DomainName) (rv : Option String) (vta : String) (b : Bool)
    (pis : List DomainName)
    (h : addStep env opts m name rv = Except.ok (vta, b, pis)) :
    b = (resolvePhase env name rv).isUpstreamPackage := by
  simp only [addStep] at h
  split at h
  · exact absurd h (by simp)
  · split at h
    · exact absurd h (by simp)
    · split at h
      · simp only [Except.ok.injEq, Prod.mk.injEq] at h
        next hflag =>
          rw [h.2.1.symm, hflag]
      · split at h
        · exact absurd h (by simp)
        · simp only [Except.ok.injEq, Prod.mk.injEq] at h
          exact h.2.1.symm

theorem mutations_frame_of_step_ok (env : AddEnvM) (opts : AddOptsM)
    (m : UnityProjectManifest) (name : DomainName) (rv : Option String) (vta : String)
    (b : Bool) (pis : List DomainName) (m' : UnityProjectManifest) (d : Bool)
    (hup : (resolvePhase env name rv).isUpstreamPackage = true)
    (hstep : addStep env opts m name rv = Except.ok (vta, b, pis))
    (happ : applyAddMutations env opts m name vta b pis = (m', d)) :
    m'.scopedRegistries = m.scopedRegistries := by
  have hb := addStep_ok_flag env opts m name rv vta b pis hstep
  rw [hup] at hb
  subst hb
  rw [show m' = (applyAddMutations env opts m name vta true pis).1 from by rw [happ]]
  exact applyAddMutations_skip_scope env opts m name vta true pis rfl

theorem addLoop_append (env : AddEnvM) (opts : AddOptsM) (m : UnityProjectManifest)
    (d : Bool) (l₁ l₂ : List (DomainName × Option String)) :
    addLoop env opts m d (l₁ ++ l₂) =
      match addLoop env opts m d l₁ with
      | Except.error e => Except.error e
      | Except.ok (m', d') => addLoop env opts m' d' l₂ := by
  induction l₁ generalizing m d with
  | nil => simp [addLoop]
  | cons pkg rest ih =>
    simp only [List.cons_append, addLoop]
    cases htry : tryAddToManifest env opts m pkg with
    | error e => simp
    | ok pr =>
      obtain ⟨nm, ch⟩ := pr
      cases ch
      · simp [ih]
      · simp [ih]

/-! ## Claims about the add command -/

/-- C6: when resolution against the primary registry fails, then with upstream
fallback enabled the upstream registry is queried exactly once and its result
replaces the primary one, with `isUpstreamPackage` set exactly when the retry
succeeds; with upstream fallback disabled the upstream registry is not queried
at all and the primary failure is surfaced. -/
theorem upstream_fallback_once (env : AddEnvM) (n : DomainName) (v : Option String)
    (hfail : (env.primary n v).isOk = false) :
    (env.upstream = true →
      (resolvePhase env n v).upstreamQueries = 1 ∧
      (resolvePhase env n v).result = env.upstreamReg n v ∧
      ((env.upstreamReg n v).isOk = true →
        (resolvePhase env n v).isUpstreamPackage = true)) ∧
    (env.upstream = false →
      (resolvePhase env n v).upstreamQueries = 0 ∧
      (resolvePhase env n v).result = env.primary n v ∧
      (resolvePhase env n v).isUpstreamPackage = false) := by
  simp only [resolvePhase, hfail]
  cases hu : env.upstream <;> simp [hu]

/-- A resolved packument version used by concrete scenarios. -/
def pvResolved : PackumentVersionM := { version := "1.2.3", targetEditorVersion := none }

/-- An environment whose primary registry knows nothing and whose upstream
registry resolves everything to `pvResolved`, with upstream fallback
enabled. -/
def envUpstreamW : AddEnvM :=
  { upstream := true,
    registryUrl := "https://package.openupm.com",
    editorVersion := EditorVer.parsed 2021,
    primary := fun _ _ => Except.error ResolveError.packumentNotFound,
    upstreamReg := fun _ _ => Except.ok pvResolved,
    resolveDeps := fun _ _ => ([], []),
    parseEditorVersion := fun _ => none }

theorem upstream_fallback_once_witness :
    ((envUpstreamW.primary "com.unity.ugui" none).isOk = false) ∧
    ((envUpstreamW.upstream = true →
      (resolvePhase envUpstreamW "com.unity.ugui" none).upstreamQueries = 1 ∧
      (resolvePhase envUpstreamW "com.unity.ugui" none).result =
        envUpstreamW.upstreamReg "com.unity.ugui" none ∧
      ((envUpstreamW.upstreamReg "com.unity.ugui" none).isOk = true →
        (resolvePhase envUpstreamW "com.unity.ugui" none).isUpstreamPackage = true)) ∧
     (envUpstreamW.upstream = false →
      (resolvePhase envUpstreamW "com.unity.ugui" none).upstreamQueries = 0 ∧
      (resolvePhase envUpstreamW "com.unity.ugui" none).result =
        envUpstreamW.primary "com.unity.ugui" none ∧
      (resolvePhase envUpstreamW "com.unity.ugui" none).isUpstreamPackage = false)) :=
  ⟨rfl, upstream_fallback_once envUpstreamW "com.unity.ugui" none rfl⟩

/-- C5: if, after a prefix of the batch was handled successfully, handling the
next requested package yields an error, then the add command returns that
error and never saves a manifest (no partial persistence of the earlier
successful packages). -/
theorem addCmd_no_partial_persist (env : AddEnvM) (opts : AddOptsM)
    (m0 : UnityProjectManifest) (pre post : List (DomainName × Option String))
    (pkg : DomainName × Option String) (m1 : UnityProjectManifest) (d1 : Bool)
    (e : AddErrorM)
    (hpre : addLoop env opts m0 false pre = Except.ok (m1, d1))
    (hfail : tryAddToManifest env opts m1 pkg = Except.error e) :
    runAddCmd env opts m0 (pre ++ pkg :: post) = Except.error e ∧
    ∀ msaved, runAddCmd env opts m0 (pre ++ pkg :: post) ≠ Except.ok (some msaved) := by
  have h := addLoop_append env opts m0 false pre (pkg :: post)
  rw [hpre] at h
  simp only [addLoop, hfail] at h
  constructor
  · simp [runAddCmd, h]
  · intro msaved
    simp [runAddCmd, h]

/-- C9: a package satisfied via the upstream registry (`isUpstreamPackage`
true) leaves the manifest's `scopedRegistries` identical to the input's:
the scoped-registry update is guarded by `!isUpstreamPackage`, and the
remaining mutations (`addDependency`, `addTestable`) do not touch it. -/
theorem upstream_package_scope_frame (env : AddEnvM) (opts : AddOptsM)
    (m : UnityProjectManifest) (name : DomainName) (rv : Option String)
    (m' : UnityProjectManifest) (d : Bool)
    (hup : (resolvePhase env name rv).isUpstreamPackage = true)
    (h : tryAddToManifest env opts m (name, rv) = Except.ok (m', d)) :
    m'.scopedRegistries = m.scopedRegistries := by
  cases rv with
  | none =>
    simp only [tryAddToManifest] at h
    cases hstep : addStep env opts m name none with
    | error e =>
      rw [hstep] at h
      exact absurd h (by simp)
    | ok trip =>
      obtain ⟨vta, b, pis⟩ := trip
      rw [hstep] at h
      have happ : applyAddMutations env opts m name vta b pis = (m', d) := Except.ok.inj h
      exact mutations_frame_of_step_ok env opts m name none vta b pis m' d hup hstep happ
  | some v =>
    simp only [tryAddToManifest] at h
    by_cases hurl : isPackageUrl v = true
    · rw [if_pos hurl] at h
      have happ : applyAddMutations env opts m name v false [] = (m', d) := Except.ok.inj h
      rw [show m' = (applyAddMutations env opts m name v false []).1 from by rw [happ]]
      exact applyAddMutations_skip_scope env opts m name v false [] rfl
    · rw [if_neg hurl] at h
      cases hstep : addStep env opts m name (some v) with
      | error e =>
        rw [hstep] at h
        exact absurd h (by simp)
      | ok trip =>
        obtain ⟨vta, b, pis⟩ := trip
        rw [hstep] at h
        have happ : applyAddMutations env opts m name vta b pis = (m', d) := Except.ok.inj h
        exact mutations_frame_of_step_ok env opts m name (some v) vta b pis m' d hup hstep happ

/-! ## Concrete inputs used by the witnesses of the add-command claims -/

/-- The options of a plain `add` invocation: no `--test`, no `--force`. -/
def optsPlain : AddOptsM := { test := false, force := false }

/-- An environment whose primary registry resolves only `com.good` and with
upstream fallback disabled. -/
def envBatchW : AddEnvM :=
  { upstream := false,
    registryUrl := "https://package.openupm.com",
    editorVersion := EditorVer.unparsed "unknown",
    primary := fun n _ =>
      if n == "com.good" then Except.ok { version := "1.0.0", targetEditorVersion := none }
      else Except.error ResolveError.packumentNotFound,
    upstreamReg := fun _ _ => Except.error ResolveError.packumentNotFound,
    resolveDeps := fun _ _ => ([], []),
    parseEditorVersion := fun _ => none }

/-- The empty manifest. -/
def manifestEmpty : UnityProjectManifest :=
  { dependencies := [], scopedRegistries := none, testables := none }

/-- The empty manifest after `com.good@1.0.0` was added. -/
def manifestGood : UnityProjectManifest :=
  { dependencies := [("com.good", "1.0.0")], scopedRegistries := none, testables := none }

theorem addCmd_no_partial_persist_witness :
    addLoop envBatchW optsPlain manifestEmpty false [("com.good", none)] =
      Except.ok (manifestGood, true) ∧
    tryAddToManifest envBatchW optsPlain manifestGood ("com.bad", none) =
      Except.error (AddErrorM.resolveErr ResolveError.packumentNotFound) ∧
    (runAddCmd envBatchW optsPlain manifestEmpty
        ([("com.good", none)] ++ ("com.bad", none) :: []) =
      Except.error (AddErrorM.resolveErr ResolveError.packumentNotFound) ∧
     ∀ msaved, runAddCmd envBatchW optsPlain manifestEmpty
        ([("com.good", none)] ++ ("com.bad", none) :: []) ≠ Except.ok (some msaved)) :=
  ⟨by decide, by decide,
   addCmd_no_partial_persist envBatchW optsPlain manifestEmpty [("com.good", none)] []
     ("com.bad", none) manifestGood true (AddErrorM.resolveErr ResolveError.packumentNotFound)
     (by decide) (by decide)⟩

/-- `manifestA` after the upstream-resolved `com.unity.ugui@1.2.3` was added:
the dependency entry is appended, everything else untouched. -/
def manifestAWithUgui : UnityProjectManifest :=
  { dependencies :=
      [("com.foo", "1.0.0"), ("com.bar", "2.0.0"), ("com.unity.ugui", "1.2.3")],
    scopedRegistries := some
      [{ name := "R", url := "http://r", scopes := ["com.foo"] },
       { name := "S", url := "http://s", scopes := ["com.foo", "com.bar"] }],
    testables := some ["com.foo"] }

theorem upstream_package_scope_frame_witness :
    (resolvePhase envUpstreamW "com.unity.ugui" none).isUpstreamPackage = true ∧
    tryAddToManifest envUpstreamW optsPlain manifestA ("com.unity.ugui", none) =
      Except.ok (manifestAWithUgui, true) ∧
    manifestAWithUgui.scopedRegistries = manifestA.scopedRegistries :=
  ⟨rfl, by decide,
   upstream_package_scope_frame envUpstreamW optsPlain manifestA "com.unity.ugui" none
     manifestAWithUgui true rfl (by decide)⟩

/-! ## The dirty-flag gap of the add command (C4) -/

/-- An environment in which no registry is ever consulted (the requested
package carries a URL specifier, so the resolution half is skipped). -/
def envUrlOnlyW : AddEnvM :=
  { upstream := false,
    registryUrl := "https://package.openupm.com",
    editorVersion := EditorVer.unparsed "unknown",
    primary := fun _ _ => Except.error ResolveError.packumentNotFound,
    upstreamReg := fun _ _ => Except.error ResolveError.packumentNotFound,
    resolveDeps := fun _ _ => ([], []),
    parseEditorVersion := fun _ => none }

/-- The options of an `add --test` invocation. -/
def optsTestW : AddOptsM := { test := true, force := false }

/-- A manifest that already holds `com.foo` at the very URL about to be
requested again, with no testables. -/
def manifestUrlDep : UnityProjectManifest :=
  { dependencies := [("com.foo", "https://example.com/pkg.git")],
    scopedRegistries := none, testables := none }

/-- `manifestUrlDep` with `com.foo` marked testable: the manifest content the
`--test` option produces in memory. -/
def manifestUrlDepTestable : UnityProjectManifest :=
  { dependencies := [("com.foo", "https://example.com/pkg.git")],
    scopedRegistries := none, testables := some ["com.foo"] }

/-- C4 (evaluation at the failing input): re-adding `com.foo` at its existing
URL with `--test` mutates the manifest (the testable is added, so the content
changes observably) yet `tryAddToManifest` reports `dirty = false`, and the
command finishes without saving: `runAddCmd` returns `Except.ok none` (no
save) and the changed manifest is discarded.  The source's own comment
describes `dirty` as "Whether a change was made that requires overwriting the
manifest", but the `addTestable` call sets no dirty flag. -/
theorem addTestable_change_not_persisted :
    tryAddToManifest envUrlOnlyW optsTestW manifestUrlDep
        ("com.foo", some "https://example.com/pkg.git") =
      Except.ok (manifestUrlDepTestable, false) ∧
    manifestUrlDepTestable ≠ manifestUrlDep ∧
    manifestUrlDepTestable.testables = some ["com.foo"] ∧
    manifestUrlDep.testables = none ∧
    runAddCmd envUrlOnlyW optsTestW manifestUrlDep
        [("com.foo", some "https://example.com/pkg.git")] =
      Except.ok none :=
  ⟨by decide, by decide, rfl, rfl, by decide⟩

/-! ## Claims about environment parsing -/

/-- C10: for every option set and upm config, the parsed environment's
upstream registry is exactly `https://packages.unity.com` with `auth = none`
— unconditionally, so no option can change it — and when no `--registry`
option is given the primary registry url defaults to
`https://package.openupm.com`. -/
theorem parseEnv_registry_defaults (options : CmdOptionsM) (upmConfig : UpmConfigM)
    (cwd0 : String) :
    (parseEnvM options upmConfig cwd0).upstreamRegistry.url = "https://packages.unity.com" ∧
    (parseEnvM options upmConfig cwd0).upstreamRegistry.auth = none ∧
    (options.registry = none →
      (parseEnvM options upmConfig cwd0).registry.url = "https://package.openupm.com") := by
  refine ⟨?_, rfl, ?_⟩
  · show determineUpstreamRegistry.url = "https://packages.unity.com"
    decide
  · intro hreg
    show (determinePrimaryRegistry options upmConfig).url = "https://package.openupm.com"
    simp only [determinePrimaryRegistry, hreg]
    decide

/-- An option set passing no flags at all. -/
def optsDefaultW : CmdOptionsM :=
  { registry := none, upstream := none, systemUser := none, chdir := none,
    verbose := none, color := none }

/-- An option set passing every flag, including a custom `--registry`. -/
def optsCustomW : CmdOptionsM :=
  { registry := some "my.registry", upstream := some false, systemUser := some true,
    chdir := some "/elsewhere", verbose := some true, color := some false }

/-- An empty upm config: no auth information for any registry. -/
def upmConfigEmptyW : UpmConfigM := fun _ => none

theorem parseEnv_registry_defaults_witness :
    ((parseEnvM optsCustomW upmConfigEmptyW "/proj").upstreamRegistry.url =
        "https://packages.unity.com" ∧
     (parseEnvM optsCustomW upmConfigEmptyW "/proj").upstreamRegistry.auth = none) ∧
    (optsDefaultW.registry = none ∧
     (parseEnvM optsDefaultW upmConfigEmptyW "/proj").registry.url =
        "https://package.openupm.com") :=
  ⟨⟨(parseEnv_registry_defaults optsCustomW upmConfigEmptyW "/proj").1,
    (parseEnv_registry_defaults optsCustomW upmConfigEmptyW "/proj").2.1⟩,
   ⟨rfl, (parseEnv_registry_defaults optsDefaultW upmConfigEmptyW "/proj").2.2 rfl⟩⟩
